import Mathlib

/-!
# Verification of the `finally` dual-store consistency engine

Shallow embedding of the job-consumption and dual-store consistency engine
of the repository:

* the `failed_operations` SQL table, its `failed_operations_stats` view and
  the `cleanup_resolved_failures` housekeeping function
  (`migrations/create_failed_operations_table.sql`, `scraper/finally.ddl`);
* the UUIDv5 point-id derivation `generate_point_id`
  (`indexer/docs/future_improvement_plan.md`, Option 1, the recommended
  scheme), including a full embedding of SHA-1 and of RFC 4122 name-based
  UUID construction over byte lists, with machine words as `Nat` reduced
  `% 2^32`;
* the failure ledger, retry scheduler, dual-write coordinator, validator,
  retry API and dashboard read contract, whose executable code is not part
  of the visible sources and is therefore modelled from the specification
  (each such definition carries a `Modelled from the spec:` note).

Timestamps are integers (seconds); SQL-nullable columns are `Option`.
-/

namespace Finally

/-! ## The `failed_operations` SQL table -/

/-- A row of the `failed_operations` table
(`migrations/create_failed_operations_table.sql`, lines 4-16). -/
structure FORow where
  rid : Nat
  operation_type : String
  product_uid : Nat
  error_message : String
  retry_count : Option Nat
  max_retries : Option Nat
  next_retry_at : Option Int
  created_at : Int
  last_attempted_at : Option Int
  resolved_at : Option Int
deriving DecidableEq

/-- One day of the SQL `INTERVAL '1 day'`, in seconds. -/
def oneDay : Int := 86400

/-- The `WHERE` predicate of the `DELETE` inside `cleanup_resolved_failures`:
`resolved_at IS NOT NULL AND resolved_at < NOW() - INTERVAL '1 day' * days_threshold`. -/
def staleResolved (days_threshold : Nat) (now : Int) (r : FORow) : Bool :=
  match r.resolved_at with
  | some t => decide (t < now - oneDay * (days_threshold : Int))
  | none => false

/-- `cleanup_resolved_failures(days_threshold INTEGER DEFAULT 30)`:
deletes the stale resolved rows and returns the remaining table together
with the `ROW_COUNT` diagnostic that the function returns. -/
def cleanup_resolved_failures (days_threshold : Nat) (now : Int)
    (table : List FORow) : List FORow × Nat :=
  (table.filter (fun r => !(staleResolved days_threshold now r)),
   (table.filter (staleResolved days_threshold now)).length)

/-- The SQL default of the `days_threshold` argument. -/
def cleanupDefaultDays : Nat := 30

/-! ## The `failed_operations_stats` view -/

/-- SQL comparison `a >= b` under three-valued logic: a `NULL` operand makes
the `CASE WHEN` condition non-true, so the row is not counted. -/
def sqlGe : Option Nat → Option Nat → Bool
  | some a, some b => decide (b ≤ a)
  | _, _ => false

/-- SQL comparison `a < b` under three-valued logic. -/
def sqlLt : Option Nat → Option Nat → Bool
  | some a, some b => decide (a < b)
  | _, _ => false

/-- The rows of one `operation_type` group (the view's `GROUP BY`). -/
def statsGroup (t : String) (rows : List FORow) : List FORow :=
  rows.filter (fun r => r.operation_type == t)

/-- `COUNT(*)` of one group of `failed_operations_stats`. -/
def total_failures (t : String) (rows : List FORow) : Nat :=
  (statsGroup t rows).length

/-- `COUNT(CASE WHEN resolved_at IS NOT NULL THEN 1 END)`. -/
def resolved_count (t : String) (rows : List FORow) : Nat :=
  ((statsGroup t rows).filter (fun r => r.resolved_at.isSome)).length

/-- `COUNT(CASE WHEN retry_count >= max_retries AND resolved_at IS NULL THEN 1 END)`. -/
def permanent_failures (t : String) (rows : List FORow) : Nat :=
  ((statsGroup t rows).filter
    (fun r => sqlGe r.retry_count r.max_retries && r.resolved_at.isNone)).length

/-- `COUNT(CASE WHEN retry_count < max_retries AND resolved_at IS NULL THEN 1 END)`. -/
def pending_retries (t : String) (rows : List FORow) : Nat :=
  ((statsGroup t rows).filter
    (fun r => sqlLt r.retry_count r.max_retries && r.resolved_at.isNone)).length

/-! ## SHA-1 and RFC 4122 version-5 UUIDs

The identity resolver of the indexer derives point ids with Python's
`uuid.uuid5`, i.e. a SHA-1 based name UUID.  The full algorithm is embedded
here over `List Nat` byte lists, with 32-bit words as `Nat` reduced `% 2^32`. -/

/-- `2^32`, the word size of SHA-1 arithmetic. -/
def w32 : Nat := 4294967296

/-- Left rotation of a 32-bit word, in plain `Nat` arithmetic:
for `x < 2^32` this is `(x <<< n ||| x >>> (32 - n)) % 2^32`. -/
def rotl (n x : Nat) : Nat := (x * 2 ^ n + x / 2 ^ (32 - n)) % w32

/-- SHA-1 round function for round `i`; `w32 - 1 - b` is the 32-bit
complement of `b`. -/
def shaF (i b c d : Nat) : Nat :=
  if i < 20 then (b &&& c) ||| ((w32 - 1 - b) &&& d)
  else if i < 40 then b ^^^ c ^^^ d
  else if i < 60 then (b &&& c) ||| (b &&& d) ||| (c &&& d)
  else b ^^^ c ^^^ d

/-- SHA-1 round constant for round `i`. -/
def shaK (i : Nat) : Nat :=
  if i < 20 then 0x5A827999
  else if i < 40 then 0x6ED9EBA1
  else if i < 60 then 0x8F1BBCDC
  else 0xCA62C1D6

/-- The 16 big-endian 32-bit words of one 64-byte chunk. -/
def chunkWords (chunk : List Nat) : List Nat :=
  (List.range 16).map (fun i =>
    chunk.getD (4 * i) 0 * 16777216 + chunk.getD (4 * i + 1) 0 * 65536 +
      chunk.getD (4 * i + 2) 0 * 256 + chunk.getD (4 * i + 3) 0)

/-- Extend the 16 message words by `n` more:
`w[i] = rotl 1 (w[i-3] xor w[i-8] xor w[i-14] xor w[i-16])`. -/
def extendWords (ws : List Nat) : Nat → List Nat
  | 0 => ws
  | n + 1 =>
    let l := ws.length
    extendWords (ws ++ [rotl 1 (ws.getD (l - 3) 0 ^^^ ws.getD (l - 8) 0 ^^^
      ws.getD (l - 14) 0 ^^^ ws.getD (l - 16) 0)]) n

/-- One SHA-1 round on the state `(a, b, c, d, e)` with message word `wi`. -/
def shaRound (i wi : Nat) (st : Nat × Nat × Nat × Nat × Nat) :
    Nat × Nat × Nat × Nat × Nat :=
  let (a, b, c, d, e) := st
  ((rotl 5 a + shaF i b c d + e + shaK i + wi) % w32, a, rotl 30 b, c, d)

/-- Process one 64-byte chunk into the running hash state `(h0, …, h4)`. -/
def processChunk (h : Nat × Nat × Nat × Nat × Nat) (chunk : List Nat) :
    Nat × Nat × Nat × Nat × Nat :=
  let w := extendWords (chunkWords chunk) 64
  let (a, b, c, d, e) :=
    (List.range 80).foldl (fun st i => shaRound i (w.getD i 0) st) h
  let (h0, h1, h2, h3, h4) := h
  ((h0 + a) % w32, (h1 + b) % w32, (h2 + c) % w32, (h3 + d) % w32,
    (h4 + e) % w32)

/-- SHA-1 padding: append `0x80`, zeros until the length is 56 mod 64,
then the message bit length as 8 big-endian bytes. -/
def padMessage (msg : List Nat) : List Nat :=
  let ml := 8 * msg.length
  let zeros := (119 - msg.length % 64) % 64
  msg ++ [0x80] ++ List.replicate zeros 0 ++
    (List.range 8).map (fun i => ml / 2 ^ (8 * (7 - i)) % 256)

/-- Split a byte list into 64-byte chunks. -/
def toChunks64 (l : List Nat) : List (List Nat) :=
  match l with
  | [] => []
  | x :: xs => ((x :: xs).take 64) :: toChunks64 ((x :: xs).drop 64)
termination_by l.length
decreasing_by simp; omega

/-- Big-endian bytes of one 32-bit word. -/
def wordBytes (w : Nat) : List Nat :=
  [w / 16777216 % 256, w / 65536 % 256, w / 256 % 256, w % 256]

/-- SHA-1 of a byte list: the 20-byte digest. -/
def sha1 (msg : List Nat) : List Nat :=
  let h :=
    (toChunks64 (padMessage msg)).foldl processChunk
      (0x67452301, 0xEFCDAB89, 0x98BADCFE, 0x10325476, 0xC3D2E1F0)
  wordBytes h.1 ++ wordBytes h.2.1 ++ wordBytes h.2.2.1 ++
    wordBytes h.2.2.2.1 ++ wordBytes h.2.2.2.2

/-- The byte form of `uuid.NAMESPACE_DNS` (RFC 4122). -/
def NAMESPACE_DNS : List Nat :=
  [0x6b, 0xa7, 0xb8, 0x10, 0x9d, 0xad, 0x11, 0xd1,
   0x80, 0xb4, 0x00, 0xc0, 0x4f, 0xd4, 0x30, 0xc8]

/-- `uuid.uuid5(namespace, name)` in byte form: SHA-1 of the namespace
bytes followed by the name bytes, truncated to 16 bytes, with the version
nibble forced to 5 and the variant bits to `10`. -/
def uuid5Bytes (ns name : List Nat) : List Nat :=
  let d := (sha1 (ns ++ name)).take 16
  (d.set 6 (d.getD 6 0 % 16 + 0x50)).set 8 (d.getD 8 0 % 64 + 0x80)

/-- UTF-8 bytes of a string. -/
def strBytes (s : String) : List Nat := s.toUTF8.toList.map (fun b => b.toNat)

/-- A 16-byte UUID as its 128-bit integer value. -/
def bytesToNat (l : List Nat) : Nat := l.foldl (fun a b => a * 256 + b) 0

/-- `generate_point_id(uid, provider_uid)` from
`indexer/docs/future_improvement_plan.md` (Option 1, the recommended
scheme): `uuid5(uuid5(NAMESPACE_DNS, f"provider_{provider_uid}"), str(uid))`,
returned as the UUID's 128-bit value. -/
def generate_point_id (uid provider_uid : Nat) : Nat :=
  let ns := uuid5Bytes NAMESPACE_DNS
    (strBytes ("provider_" ++ toString provider_uid))
  bytesToNat (uuid5Bytes ns (strBytes (toString uid)))

/-! ## The failure ledger (spec-modelled)

The ledger-updating application code is not part of the visible sources
(only the SQL schema, its callers and the dashboard are); the operations
below are modelled from the specification's Failure Ledger & Retry
Scheduler section. -/

/-- Modelled from the spec: a `FailedOperation` ledger row, keyed
conceptually by `(operation_type, listing_id)`.  The listing-id type is a
parameter `K`: an integer `product_uid` in the DDL, the
`(provider, natural_id)` pair inside the coordinator. -/
structure LedgerEntry (K : Type) where
  eid : Nat
  operation_type : String
  listing_id : K
  error_message : String
  retry_count : Nat
  max_retries : Nat
  next_retry_at : Int
  created_at : Int
  last_attempted_at : Int
  resolved_at : Option Int
deriving DecidableEq

/-- The SQL default of `max_retries`. -/
def defaultMaxRetries : Nat := 3

variable {K : Type} [DecidableEq K]

/-- Is `e` the unresolved row for key `(o, k)` (`resolved_at` null)? -/
def keyedUnresolved (o : String) (k : K) (e : LedgerEntry K) : Bool :=
  decide (e.operation_type = o) && decide (e.listing_id = k) &&
    decide (e.resolved_at = none)

/-- Number of unresolved rows for key `(o, k)`. -/
def countUnresolved (o : String) (k : K) (l : List (LedgerEntry K)) : Nat :=
  l.countP (keyedUnresolved o k)

/-- Modelled from the spec: exponential backoff — a base delay doubled per
attempt, capped at a maximum interval.  The spec leaves the base and cap
open as tunables, so they are parameters. -/
def backoff (base cap : Int) (n : Nat) : Int := min (base * 2 ^ n) cap

/-- A fresh `SERIAL` id for an inserted row. -/
def nextEid (l : List (LedgerEntry K)) : Nat :=
  (l.map (fun e => e.eid)).foldl (fun a b => max a b) 0 + 1

/-- Modelled from the spec: the row inserted on a first failure,
with `retry_count = 0`. -/
def freshEntry (base cap now : Int) (o : String) (k : K) (msg : String)
    (l : List (LedgerEntry K)) : LedgerEntry K :=
  { eid := nextEid l, operation_type := o, listing_id := k,
    error_message := msg, retry_count := 0,
    max_retries := defaultMaxRetries,
    next_retry_at := now + backoff base cap 0,
    created_at := now, last_attempted_at := now, resolved_at := none }

/-- Modelled from the spec: on a further failure the existing unresolved
row is updated — `retry_count` incremented, the new error recorded,
`next_retry_at` recomputed with exponential backoff. -/
def bumpEntry (base cap now : Int) (msg : String) (e : LedgerEntry K) :
    LedgerEntry K :=
  { e with retry_count := e.retry_count + 1,
           error_message := msg,
           next_retry_at := now + backoff base cap (e.retry_count + 1),
           last_attempted_at := now }

/-- Modelled from the spec: the Ledger upsert-on-conflict against the key
`(operation_type, listing_id)` — insert a fresh row when no unresolved row
for the key exists, otherwise update the existing unresolved row. -/
def recordFailure (base cap now : Int) (o : String) (k : K) (msg : String)
    (l : List (LedgerEntry K)) : List (LedgerEntry K) :=
  if l.any (keyedUnresolved o k) then
    l.map (fun e =>
      if keyedUnresolved o k e then bumpEntry base cap now msg e else e)
  else
    l ++ [freshEntry base cap now o k msg l]

/-- Modelled from the spec: on a successful retry `resolved_at` is set and
the row stops being selected. -/
def resolveKey (now : Int) (o : String) (k : K)
    (l : List (LedgerEntry K)) : List (LedgerEntry K) :=
  l.map (fun e =>
    if keyedUnresolved o k e then { e with resolved_at := some now } else e)

/-- The housekeeping predicate of `cleanup_resolved_failures`, on ledger
entries. -/
def staleEntry (days : Nat) (now : Int) (e : LedgerEntry K) : Bool :=
  match e.resolved_at with
  | some t => decide (t < now - oneDay * (days : Int))
  | none => false

/-- The housekeeping pass on the ledger: purge resolved rows older than the
retention threshold. -/
def purgeResolvedEntries (days : Nat) (now : Int)
    (l : List (LedgerEntry K)) : List (LedgerEntry K) :=
  l.filter (fun e => !(staleEntry days now e))

/-- Modelled from the spec: the Retry Scheduler's selection — unresolved
rows with `next_retry_at <= now AND retry_count < max_retries`. -/
def isDue (now : Int) (e : LedgerEntry K) : Bool :=
  decide (e.resolved_at = none) && decide (e.next_retry_at ≤ now) &&
    decide (e.retry_count < e.max_retries)

/-- The rows the Retry Scheduler selects at time `now`. -/
def dueEntries (now : Int) (l : List (LedgerEntry K)) :
    List (LedgerEntry K) :=
  l.filter (isDue now)

/-- Modelled from the spec: a scheduler-driven retry of key `(o, k)` that
fails again.  The scheduler only re-submits a row it selected, so the
ledger is touched only when a due row for the key exists. -/
def schedulerRetryFail (base cap now : Int) (o : String) (k : K)
    (msg : String) (l : List (LedgerEntry K)) : List (LedgerEntry K) :=
  if l.any (fun e => isDue now e && keyedUnresolved o k e) then
    recordFailure base cap now o k msg l
  else l

/-- Modelled from the spec: the ledger's mutation alphabet — a Coordinator
failure, a successful retry, the housekeeping pass. -/
inductive LedgerStep : List (LedgerEntry K) → List (LedgerEntry K) → Prop where
  | fail (base cap now : Int) (o : String) (k : K) (msg : String) (l) :
      LedgerStep l (recordFailure base cap now o k msg l)
  | resolve (now : Int) (o : String) (k : K) (l) :
      LedgerStep l (resolveKey now o k l)
  | purge (days : Nat) (now : Int) (l) :
      LedgerStep l (purgeResolvedEntries days now l)

/-- Ledger states reachable from the empty table. -/
inductive LedgerReachable : List (LedgerEntry K) → Prop where
  | init : LedgerReachable []
  | step {l l'} : LedgerReachable l → LedgerStep l l' → LedgerReachable l'

/-! ## Retry API and dashboard read contract -/

/-- The body of the `POST retry` response. -/
structure RetryResponse where
  retried_count : Nat
deriving DecidableEq

/-- Modelled from the spec: the operations `POST retry` re-submits — the
explicitly named ones when a body with `operation_ids` is given, all
currently-due unresolved rows when the body is omitted. -/
def selectedForRetry (now : Int) (body : Option (List Nat))
    (l : List (LedgerEntry K)) : List (LedgerEntry K) :=
  match body with
  | some ids => l.filter (fun e => ids.contains e.eid)
  | none => dueEntries now l

/-- Modelled from the spec: `POST retry` — the re-submitted operations and
the response reporting how many were retried. -/
def retryEndpoint (now : Int) (body : Option (List Nat))
    (l : List (LedgerEntry K)) : List (LedgerEntry K) × RetryResponse :=
  let ops := selectedForRetry now body l
  (ops, { retried_count := ops.length })

/-- Modelled from the spec: `GET failures?page&page_size` — one page of the
unresolved rows. -/
def failuresPage (page pageSize : Nat) (l : List (LedgerEntry K)) :
    List (LedgerEntry K) :=
  ((l.filter (fun e => decide (e.resolved_at = none))).drop
    ((page - 1) * pageSize)).take pageSize

/-- `IndexerDashboard.fetchFailures` (dashboard source): the dashboard
always requests `page=1&page_size=10`. -/
def fetchFailures (l : List (LedgerEntry K)) : List (LedgerEntry K) :=
  failuresPage 1 10 l

/-- `IndexerDashboard.updateFailedJobs` (dashboard source): the displayed
failed-job count is `data.failures.length` of the fetched page. -/
def displayedFailedCount (l : List (LedgerEntry K)) : Nat :=
  (fetchFailures l).length

/-- Modelled from the spec: the `failed_count` of `GET status` — the number
of unresolved rows. -/
def status_failed_count (l : List (LedgerEntry K)) : Nat :=
  (l.filter (fun e => decide (e.resolved_at = none))).length

/-! ## Jobs and the Decoder/Validator (spec-modelled)

The decoder code is not part of the visible sources; the rules below are
modelled from the specification and from the job-format document
(`indexer` docs, required-field and size constraints).  The 1 MiB limit on
the raw message size concerns the undecoded byte stream and has no
counterpart on the structured value, so it is not modelled. -/

/-- The closed tagged union of job types. -/
inductive JobType where
  | sync
  | update
  | delete
deriving DecidableEq

/-- The `operation_type` string stored in the ledger for a job type. -/
def jobTypeName : JobType → String
  | .sync => "sync"
  | .update => "update"
  | .delete => "delete"

/-- A validated `product_data` payload. -/
structure ProductData where
  pid : String
  title : String
  price : Option Int
  content : Option String
  year : Option Int
  mileage : Option Int
  page_url : Option String
  images : List String
deriving DecidableEq

/-- A validated job; for `delete` the payload is absent. -/
structure Job where
  jid : Option String
  jtype : JobType
  product_id : String
  provider : String
  product_data : Option ProductData
deriving DecidableEq

/-- The raw, still unvalidated `product_data` object of a queue message. -/
structure RawProductData where
  pid : Option String
  title : Option String
  price : Option Int
  content : Option String
  year : Option Int
  mileage : Option Int
  page_url : Option String
  images : Option (List String)
deriving DecidableEq

/-- A raw queue message after JSON parsing, before validation. -/
structure RawJob where
  jid : Option String
  jtype : Option String
  product_id : Option String
  provider : Option String
  product_data : Option RawProductData
deriving DecidableEq

/-- A rejection naming the offending field. -/
structure ValidationError where
  field : String
deriving DecidableEq

/-- `type` must be one of `sync`, `update`, `delete`. -/
def jobTypeOf : String → Option JobType
  | "sync" => some .sync
  | "update" => some .update
  | "delete" => some .delete
  | _ => none

/-- Modelled from the spec: an image entry must be a URL-shaped string
(spec 4.1, `images` is a list of at most 20 URL-shaped strings); the spec
fixes no precise shape, so URL-shaped is modelled as starting with
`http://` or `https://`, checked on the character list. -/
def isUrlShaped (s : String) : Bool :=
  decide (s.toList.take 7 = "http://".toList)
    || decide (s.toList.take 8 = "https://".toList)

/-- Modelled from the spec: validation of `product_data` for sync/update —
`pid` and `title` required, `title` at most 500 chars, `content` at most
10000 chars, at most 20 URL-shaped images, `price`/`mileage` non-negative
or absent, `year` a 4-digit integer or absent. -/
def validateData (rd : RawProductData) : Except ValidationError ProductData :=
  match rd.pid with
  | none => .error ⟨"product_data.pid"⟩
  | some pid =>
    match rd.title with
    | none => .error ⟨"product_data.title"⟩
    | some title =>
      if title.length > 500 then .error ⟨"product_data.title"⟩
      else if (rd.content.getD "").length > 10000 then
        .error ⟨"product_data.content"⟩
      else if (rd.images.getD []).length > 20 then
        .error ⟨"product_data.images"⟩
      else if !((rd.images.getD []).all isUrlShaped) then
        .error ⟨"product_data.images"⟩
      else if rd.price.getD 0 < 0 then .error ⟨"product_data.price"⟩
      else if rd.mileage.getD 0 < 0 then .error ⟨"product_data.mileage"⟩
      else if !(match rd.year with
                | none => true
                | some y => decide (1000 ≤ y ∧ y ≤ 9999)) then
        .error ⟨"product_data.year"⟩
      else .ok { pid := pid, title := title, price := rd.price,
                 content := rd.content, year := rd.year,
                 mileage := rd.mileage, page_url := rd.page_url,
                 images := rd.images.getD [] }

/-- Modelled from the spec: the Decoder/Validator — `type` and a non-empty
`product_id` are required; sync/update additionally require a valid
`product_data`; the provider defaults to `bunjang`. -/
def validate (raw : RawJob) : Except ValidationError Job :=
  match raw.jtype with
  | none => .error ⟨"type"⟩
  | some t =>
    match jobTypeOf t with
    | none => .error ⟨"type"⟩
    | some jt =>
      match raw.product_id with
      | none => .error ⟨"product_id"⟩
      | some pidStr =>
        if pidStr = "" then .error ⟨"product_id"⟩
        else
          match jt with
          | .delete =>
            .ok { jid := raw.jid, jtype := .delete, product_id := pidStr,
                  provider := raw.provider.getD "bunjang",
                  product_data := none }
          | _ =>
            match raw.product_data with
            | none => .error ⟨"product_data"⟩
            | some rd =>
              match validateData rd with
              | .error e => .error e
              | .ok pd =>
                .ok { jid := raw.jid, jtype := jt, product_id := pidStr,
                      provider := raw.provider.getD "bunjang",
                      product_data := some pd }

/-! ## The relational and vector stores, and the Dual-Write Coordinator
(spec-modelled)

The coordinator code is not part of the visible sources; it is modelled
from the specification's Dual-Write Coordinator section.  The point-id
type is a parameter `ι` and the identity resolver a parameter
`ident : String → String → ι`. -/

/-- A `product` row as the coordinator sees it, keyed by
`(provider, natural_id)`; `is_conversion` is the DDL's indexed flag. -/
structure Listing where
  provider : String
  natural_id : String
  title : String
  price : Option Int
  content : Option String
  year : Option Int
  mileage : Option Int
  images : List String
  is_conversion : Bool
deriving DecidableEq

/-- A vector-index point: deterministic id, embedding vector, payload
mirror of the listing attributes. -/
structure VectorPoint (ι : Type) where
  point_id : ι
  vec : List Int
  payload : Listing
deriving DecidableEq

/-- The two stores and the failure ledger, keyed by
`(provider, natural_id)` pairs. -/
structure EngineState (ι : Type) where
  listings : List Listing
  points : List (VectorPoint ι)
  ledger : List (LedgerEntry (String × String))
deriving DecidableEq

/-- Does listing `L` carry key `(pr, nid)`? -/
def listingKeyMatch (pr nid : String) (L : Listing) : Bool :=
  decide (L.provider = pr) && decide (L.natural_id = nid)

/-- Upsert a listing row by key: replace the first row with the key, or
append when none exists. -/
def upsertListing (pr nid : String) (row : Listing) :
    List Listing → List Listing
  | [] => [row]
  | L :: ls =>
    if listingKeyMatch pr nid L then row :: ls
    else L :: upsertListing pr nid row ls

/-- Read the current listing row for a key. -/
def findListing (pr nid : String) : List Listing → Option Listing
  | [] => none
  | L :: ls =>
    if listingKeyMatch pr nid L then some L else findListing pr nid ls

/-- Set the indexed flag of the rows with the key. -/
def setIndexed (pr nid : String) (b : Bool) (ls : List Listing) :
    List Listing :=
  ls.map (fun L =>
    if listingKeyMatch pr nid L then { L with is_conversion := b } else L)

/-- Delete the listing rows with the key. -/
def removeListing (pr nid : String) (ls : List Listing) : List Listing :=
  ls.filter (fun L => !(listingKeyMatch pr nid L))

variable {ι : Type} [DecidableEq ι]

/-- Upsert a vector point at its id: replace the first point with the id,
or append when none exists. -/
def upsertPoint (pid : ι) (p : VectorPoint ι) :
    List (VectorPoint ι) → List (VectorPoint ι)
  | [] => [p]
  | q :: qs =>
    if q.point_id = pid then p :: qs else q :: upsertPoint pid p qs

/-- Delete the vector points with the id (not-found deletes nothing and is
not an error). -/
def removePoint (pid : ι) (ps : List (VectorPoint ι)) :
    List (VectorPoint ι) :=
  ps.filter (fun q => !(decide (q.point_id = pid)))

/-- The listing row a sync/update job writes (step 1 of the coordinator,
`indexed = false`). -/
def listingOfJob (j : Job) (pd : ProductData) : Listing :=
  { provider := j.provider, natural_id := j.product_id, title := pd.title,
    price := pd.price, content := pd.content, year := pd.year,
    mileage := pd.mileage, images := pd.images, is_conversion := false }

/-- The text the coordinator sends to the embedding capability. -/
def embedText (pd : ProductData) : String :=
  pd.title ++ " " ++ pd.content.getD ""

/-- Modelled from the spec: the sync/update path of the Dual-Write
Coordinator.  `er` is the outcome of the external embedding call —
`some v` on success, `none` on failure.  Steps: (1) upsert the Listing with
`indexed = false`; on embedding failure hand the job's key and error to the
Failure Ledger; on success (3) upsert the VectorPoint at the derived
identity with a payload re-read from the latest listing row and (4) set
`indexed = true`. -/
def applySync (ident : String → String → ι) (base cap now : Int)
    (j : Job) (pd : ProductData) (er : Option (List Int))
    (s : EngineState ι) : EngineState ι :=
  let ls1 := upsertListing j.provider j.product_id (listingOfJob j pd)
    s.listings
  match er with
  | none =>
    { listings := ls1, points := s.points,
      ledger := recordFailure base cap now (jobTypeName j.jtype)
        (j.provider, j.product_id) "embedding failed" s.ledger }
  | some v =>
    let pid := ident j.provider j.product_id
    let row := (findListing j.provider j.product_id ls1).getD
      (listingOfJob j pd)
    { listings := setIndexed j.provider j.product_id true ls1,
      points := upsertPoint pid ⟨pid, v, row⟩ s.points,
      ledger := s.ledger }

/-- Modelled from the spec: the delete path — remove the VectorPoint at the
derived identity, remove the Listing row. -/
def applyDelete (ident : String → String → ι) (j : Job)
    (s : EngineState ι) : EngineState ι :=
  { listings := removeListing j.provider j.product_id s.listings,
    points := removePoint (ident j.provider j.product_id) s.points,
    ledger := s.ledger }

/-- Modelled from the spec: the consumer loop — validate, then hand the job
to the coordinator; a rejected job is dropped (logged only) and touches
neither store nor the ledger. -/
def processMessage (ident : String → String → ι) (base cap now : Int)
    (er : Option (List Int)) (raw : RawJob) (s : EngineState ι) :
    EngineState ι :=
  match validate raw with
  | .error _ => s
  | .ok j =>
    match j.jtype, j.product_data with
    | .delete, _ => applyDelete ident j s
    | _, some pd => applySync ident base cap now j pd er s
    | _, none => s

/-- Modelled from the spec: every mutation of the engine state — a
sync/update with an injected embedding outcome, a delete, a resolved
retry, the housekeeping pass. -/
inductive EngineStep (ident : String → String → ι) :
    EngineState ι → EngineState ι → Prop where
  | syncStep (base cap now : Int) (j : Job) (pd : ProductData)
      (er : Option (List Int)) (s) :
      EngineStep ident s (applySync ident base cap now j pd er s)
  | deleteStep (j : Job) (s) :
      EngineStep ident s (applyDelete ident j s)
  | resolveStep (now : Int) (o : String) (k : String × String) (s : EngineState ι) :
      EngineStep ident s
        { s with ledger := resolveKey now o k s.ledger }
  | purgeStep (days : Nat) (now : Int) (s : EngineState ι) :
      EngineStep ident s
        { s with ledger := purgeResolvedEntries days now s.ledger }

/-- Engine states reachable from empty stores. -/
inductive EngineReachable (ident : String → String → ι) :
    EngineState ι → Prop where
  | init : EngineReachable ident ⟨[], [], []⟩
  | step {s s'} : EngineReachable ident s → EngineStep ident s s' →
      EngineReachable ident s'

/-- A Listing is marked indexed only if a vector point exists at its
derived identity. -/
def IndexedHasPoint (ident : String → String → ι) (s : EngineState ι) :
    Prop :=
  ∀ L ∈ s.listings, L.is_conversion = true →
    ∃ p ∈ s.points, p.point_id = ident L.provider L.natural_id

/-! ## C7: the housekeeping pass -/

/-- **C7.** `cleanup_resolved_failures(days_threshold)` deletes exactly the
`failed_operations` rows whose `resolved_at` is non-null and older than the
threshold, returns the number of rows deleted, and keeps every unresolved
row and every recently-resolved row. -/
theorem c7_cleanup_exact (days : Nat) (now : Int) (table : List FORow) :
    ((cleanup_resolved_failures days now table).2
        = (table.filter (staleResolved days now)).length)
    ∧ (∀ r, r ∈ (cleanup_resolved_failures days now table).1 ↔
        r ∈ table ∧ staleResolved days now r = false)
    ∧ (∀ r ∈ table, r.resolved_at = none →
        r ∈ (cleanup_resolved_failures days now table).1)
    ∧ (∀ r ∈ table, ∀ t, r.resolved_at = some t →
        now - oneDay * (days : Int) ≤ t →
        r ∈ (cleanup_resolved_failures days now table).1) := by
  refine ⟨rfl, ?_, ?_, ?_⟩
  · intro r
    simp [cleanup_resolved_failures, List.mem_filter]
  · intro r hr h
    simp [cleanup_resolved_failures, List.mem_filter, staleResolved, h, hr]
  · intro r hr t ht hle
    simp only [cleanup_resolved_failures, List.mem_filter]
    refine ⟨hr, ?_⟩
    simp [staleResolved, ht]
    omega

/-- A recently-resolved row used to instantiate `c7_cleanup_exact`. -/
def c7row : FORow :=
  { rid := 1, operation_type := "sync", product_uid := 5,
    error_message := "timeout", retry_count := some 1,
    max_retries := some 3, next_retry_at := none, created_at := 0,
    last_attempted_at := none, resolved_at := some 0 }

/-- Witness for C7: a row resolved less than 30 days before `now` survives
the default housekeeping pass. -/
theorem c7_cleanup_exact_witness :
    c7row ∈ (cleanup_resolved_failures 30 864000 [c7row]).1 :=
  (c7_cleanup_exact 30 864000 [c7row]).2.2.2 c7row (by simp) 0 rfl (by decide)

/-! ## C9: the `failed_operations_stats` view -/

/-- The partition lemma behind C9, over one group of rows. -/
theorem statsPartitionAux : ∀ l : List FORow,
    (∀ r ∈ l, r.retry_count.isSome ∧ r.max_retries.isSome) →
    l.countP (fun r => r.resolved_at.isSome)
      + l.countP
          (fun r => sqlGe r.retry_count r.max_retries && r.resolved_at.isNone)
      + l.countP
          (fun r => sqlLt r.retry_count r.max_retries && r.resolved_at.isNone)
      = l.length := by
  intro l
  induction l with
  | nil => intro _; rfl
  | cons r l ih =>
    intro h
    have ihl := ih (fun x hx => h x (by simp [hx]))
    obtain ⟨hrc, hmr⟩ := h r (by simp)
    obtain ⟨a, ha⟩ := Option.isSome_iff_exists.mp hrc
    obtain ⟨b, hb⟩ := Option.isSome_iff_exists.mp hmr
    simp only [List.countP_cons, List.length_cons]
    cases hres : r.resolved_at with
    | some t =>
      simp only [hres, Option.isSome_some, Option.isNone_some,
        Bool.and_false]
      norm_num
      omega
    | none =>
      rcases le_or_lt b a with hba | hab
      · have h1 : sqlGe r.retry_count r.max_retries = true := by
          simp [sqlGe, ha, hb, hba]
        have h2 : sqlLt r.retry_count r.max_retries = false := by
          simp [sqlLt, ha, hb]; omega
        simp only [hres, h1, h2, Option.isSome_none, Option.isNone_none,
          Bool.true_and, Bool.false_and]
        norm_num
        omega
      · have h1 : sqlGe r.retry_count r.max_retries = false := by
          simp [sqlGe, ha, hb]; omega
        have h2 : sqlLt r.retry_count r.max_retries = true := by
          simp [sqlLt, ha, hb]; omega
        simp only [hres, h1, h2, Option.isSome_none, Option.isNone_none,
          Bool.true_and, Bool.false_and]
        norm_num
        omega

/-- **C9.** When `retry_count` and `max_retries` are non-null in every row,
the `failed_operations_stats` view partitions each `operation_type` group
exactly: `resolved_count + permanent_failures + pending_retries =
total_failures`. -/
theorem c9_stats_partition (t : String) (rows : List FORow)
    (h : ∀ r ∈ rows, r.retry_count.isSome ∧ r.max_retries.isSome) :
    resolved_count t rows + permanent_failures t rows + pending_retries t rows
      = total_failures t rows := by
  have hg : ∀ r ∈ statsGroup t rows,
      r.retry_count.isSome ∧ r.max_retries.isSome :=
    fun r hr => h r (List.mem_filter.mp hr).1
  have hp := statsPartitionAux (statsGroup t rows) hg
  simpa [resolved_count, permanent_failures, pending_retries, total_failures,
    ← List.countP_eq_length_filter] using hp

/-- Rows exercising every bucket of the view, to instantiate C9. -/
def c9rows : List FORow :=
  [{ rid := 1, operation_type := "sync", product_uid := 1,
     error_message := "a", retry_count := some 0, max_retries := some 3,
     next_retry_at := none, created_at := 0, last_attempted_at := none,
     resolved_at := some 5 },
   { rid := 2, operation_type := "sync", product_uid := 2,
     error_message := "b", retry_count := some 3, max_retries := some 3,
     next_retry_at := some 9, created_at := 0, last_attempted_at := some 4,
     resolved_at := none },
   { rid := 3, operation_type := "sync", product_uid := 3,
     error_message := "c", retry_count := some 1, max_retries := some 3,
     next_retry_at := some 7, created_at := 0, last_attempted_at := some 2,
     resolved_at := none }]

/-- Witness for C9 on a concrete table: `1 + 1 + 1 = 3`. -/
theorem c9_stats_partition_witness :
    resolved_count "sync" c9rows + permanent_failures "sync" c9rows
      + pending_retries "sync" c9rows = total_failures "sync" c9rows :=
  c9_stats_partition "sync" c9rows (by
    intro r hr
    simp only [c9rows, List.mem_cons, List.not_mem_nil, or_false] at hr
    rcases hr with rfl | rfl | rfl <;> decide)

/-! ## C2: the point-id derivation -/

/-- Every byte of a serialized 32-bit word is below 256. -/
theorem wordBytes_lt (w : Nat) : ∀ b ∈ wordBytes w, b < 256 := by
  intro b hb
  simp only [wordBytes, List.mem_cons, List.not_mem_nil, or_false] at hb
  rcases hb with rfl | rfl | rfl | rfl <;> exact Nat.mod_lt _ (by norm_num)

/-- Every byte of a SHA-1 digest is below 256. -/
theorem sha1_bytes_lt (msg : List Nat) : ∀ b ∈ sha1 msg, b < 256 := by
  intro b hb
  unfold sha1 at hb
  simp only [List.mem_append] at hb
  rcases hb with ((((h | h) | h) | h) | h) <;> exact wordBytes_lt _ b h

/-- Every byte of a version-5 UUID is below 256. -/
theorem uuid5Bytes_bytes_lt (ns name : List Nat) :
    ∀ b ∈ uuid5Bytes ns name, b < 256 := by
  intro b hb
  simp only [uuid5Bytes] at hb
  rcases List.mem_or_eq_of_mem_set hb with hb1 | rfl
  · rcases List.mem_or_eq_of_mem_set hb1 with hb2 | rfl
    · exact sha1_bytes_lt _ b (List.mem_of_mem_take hb2)
    · have := Nat.mod_lt (((sha1 (ns ++ name)).take 16).getD 6 0)
        (show 0 < 16 by norm_num)
      omega
  · have := Nat.mod_lt (((sha1 (ns ++ name)).take 16).getD 8 0)
      (show 0 < 64 by norm_num)
    omega

/-- A version-5 UUID has at most 16 bytes. -/
theorem uuid5Bytes_len (ns name : List Nat) :
    (uuid5Bytes ns name).length ≤ 16 := by
  simp only [uuid5Bytes, List.length_set, List.length_take]
  omega

/-- Big-endian accumulation of bytes below 256 stays below
`(a + 1) * 256 ^ length`. -/
theorem bytesToNatAux : ∀ (l : List Nat) (a : Nat), (∀ b ∈ l, b < 256) →
    l.foldl (fun x y => x * 256 + y) a < (a + 1) * 256 ^ l.length := by
  intro l
  induction l with
  | nil => intro a _; simp
  | cons b l ih =>
    intro a h
    have hb : b < 256 := h b (by simp)
    have hrec := ih (a * 256 + b) (fun x hx => h x (by simp [hx]))
    rw [List.foldl_cons]
    refine lt_of_lt_of_le hrec ?_
    simp only [List.length_cons, pow_succ]
    have hstep : a * 256 + b + 1 ≤ (a + 1) * 256 := by omega
    calc (a * 256 + b + 1) * 256 ^ l.length
        ≤ ((a + 1) * 256) * 256 ^ l.length :=
          Nat.mul_le_mul_right _ hstep
      _ = (a + 1) * (256 ^ l.length * 256) := by ring

/-- A byte list of length at most 16 denotes a value below `2^128`. -/
theorem bytesToNat_lt (l : List Nat) (hb : ∀ b ∈ l, b < 256)
    (hl : l.length ≤ 16) : bytesToNat l < 2 ^ 128 := by
  have h1 := bytesToNatAux l 0 hb
  have h2 : (256 : Nat) ^ l.length ≤ 256 ^ 16 :=
    Nat.pow_le_pow_right (by norm_num) hl
  have h3 : (256 : Nat) ^ 16 = 2 ^ 128 := by norm_num
  unfold bytesToNat
  omega

/-- Every generated point id fits the 128-bit UUID space. -/
theorem generate_point_id_lt (uid provider_uid : Nat) :
    generate_point_id uid provider_uid < 2 ^ 128 := by
  unfold generate_point_id
  exact bytesToNat_lt _ (uuid5Bytes_bytes_lt _ _) (uuid5Bytes_len _ _)

/-- **C2 (counterexample).** `generate_point_id` cannot be injective over
the full space of `(provider, natural_id)` inputs: the ids live in the
finite 128-bit UUID space while the input space is unbounded, so two
distinct inputs share an id. -/
theorem c2_not_injective :
    ∃ p q : Nat × Nat, p ≠ q
      ∧ generate_point_id p.1 p.2 = generate_point_id q.1 q.2 := by
  obtain ⟨x, y, hxy, hfe⟩ := Finite.exists_ne_map_eq_of_infinite
    (fun n : Nat =>
      (⟨generate_point_id n 1, generate_point_id_lt n 1⟩ : Fin (2 ^ 128)))
  refine ⟨(x, 1), (y, 1), ?_, congrArg Fin.val hfe⟩
  intro hpair
  exact hxy (Prod.ext_iff.mp hpair).1

/-- **C2 (amended).** `generate_point_id` is deterministic — a pure
function of `(uid, provider_uid)` — and always yields a value in the
128-bit UUID space; full-space injectivity is refuted by
`c2_not_injective`, so collision-freedom rests on SHA-1 collision
resistance rather than on the id scheme itself. -/
theorem c2_point_id_deterministic_bounded (uid provider_uid : Nat) :
    generate_point_id uid provider_uid = generate_point_id uid provider_uid
    ∧ generate_point_id uid provider_uid < 2 ^ 128 :=
  ⟨rfl, generate_point_id_lt uid provider_uid⟩

/-! ## C10: the dashboard failed-job count -/

/-- **C10.** The dashboard displays the length of the first failures page,
requested with `page_size = 10`; whenever more than 10 unresolved rows
exist, the displayed count is exactly 10 and understates the
`failed_count` of the status endpoint. -/
theorem c10_dashboard_truncates {K : Type} [DecidableEq K]
    (l : List (LedgerEntry K)) (h : 10 < status_failed_count l) :
    displayedFailedCount l = 10
    ∧ displayedFailedCount l < status_failed_count l := by
  unfold status_failed_count at h
  unfold displayedFailedCount fetchFailures failuresPage status_failed_count
  simp only [List.length_take, List.length_drop]
  omega

/-- Eleven unresolved rows, to instantiate C10. -/
def c10ledger : List (LedgerEntry Nat) :=
  (List.range 11).map (fun i =>
    { eid := i, operation_type := "sync", listing_id := i,
      error_message := "embedding failed", retry_count := 0,
      max_retries := 3, next_retry_at := 0, created_at := 0,
      last_attempted_at := 0, resolved_at := none })

/-- Witness for C10: with 11 unresolved rows the dashboard shows 10. -/
theorem c10_dashboard_truncates_witness :
    displayedFailedCount c10ledger = 10
    ∧ displayedFailedCount c10ledger < status_failed_count c10ledger :=
  c10_dashboard_truncates c10ledger (by decide)

/-! ## C8: the retry API -/

/-- **C8.** `POST retry`: with a body naming `operation_ids`, exactly the
named operations are re-submitted; with the body omitted, exactly the
currently-due unresolved rows are; in both cases `retried_count` reports
how many operations were retried. -/
theorem c8_retry_api {K : Type} [DecidableEq K] (now : Int)
    (body : Option (List Nat)) (l : List (LedgerEntry K)) :
    ((retryEndpoint now body l).2.retried_count
        = (retryEndpoint now body l).1.length)
    ∧ (∀ ids, body = some ids →
        ∀ e, e ∈ (retryEndpoint now body l).1 ↔ e ∈ l ∧ e.eid ∈ ids)
    ∧ (body = none →
        ∀ e, e ∈ (retryEndpoint now body l).1 ↔
          e ∈ l ∧ e.resolved_at = none ∧ e.next_retry_at ≤ now
            ∧ e.retry_count < e.max_retries) := by
  refine ⟨rfl, ?_, ?_⟩
  · rintro ids rfl e
    simp [retryEndpoint, selectedForRetry, List.mem_filter]
  · rintro rfl e
    simp [retryEndpoint, selectedForRetry, dueEntries, isDue,
      List.mem_filter, and_assoc]

/-- A due unresolved entry, to instantiate C8. -/
def c8entry : LedgerEntry Nat :=
  { eid := 2, operation_type := "sync", listing_id := 9,
    error_message := "timeout", retry_count := 1, max_retries := 3,
    next_retry_at := 4, created_at := 0, last_attempted_at := 1,
    resolved_at := none }

/-- Witness for C8: retrying explicit id 2 selects exactly the entry with
that id. -/
theorem c8_retry_api_witness :
    c8entry ∈ (retryEndpoint 5 (some [2]) [c8entry]).1 ↔
      c8entry ∈ [c8entry] ∧ c8entry.eid ∈ [2] :=
  (c8_retry_api 5 (some [2]) [c8entry]).2.1 [2] rfl c8entry

/-! ## C1: uniqueness of the unresolved row per key -/

/-- Updating an unresolved row in place never changes whether a row counts
as the unresolved row of any key. -/
theorem keyedUnresolved_bump {K : Type} [DecidableEq K]
    (o' : String) (k' : K) (o : String) (k : K) (base cap now : Int)
    (msg : String) (e : LedgerEntry K) :
    keyedUnresolved o' k'
        (if keyedUnresolved o k e then bumpEntry base cap now msg e else e)
      = keyedUnresolved o' k' e := by
  by_cases h : keyedUnresolved o k e
  · rw [if_pos h]
    simp [keyedUnresolved, bumpEntry]
  · rw [if_neg h]

/-- **C1.** In every ledger state reachable from the empty table, at most
one unresolved `FailedOperation` row exists per
`(operation_type, listing_id)` key: a repeated failure updates the
existing unresolved row instead of inserting a duplicate. -/
theorem c1_unresolved_unique {K : Type} [DecidableEq K]
    (l : List (LedgerEntry K)) (h : LedgerReachable l) :
    ∀ (o : String) (k : K), countUnresolved o k l ≤ 1 := by
  induction h with
  | init => intro o k; simp [countUnresolved]
  | @step l l' _ hs ih =>
    intro o k
    cases hs with
    | fail base cap now o' k' msg =>
      unfold recordFailure
      by_cases hany : l.any (keyedUnresolved o' k') = true
      · rw [if_pos hany]
        unfold countUnresolved
        rw [List.countP_map,
          List.countP_congr (fun e _ => by
            rw [Function.comp_apply, keyedUnresolved_bump])]
        exact ih o k
      · rw [if_neg hany]
        unfold countUnresolved
        rw [List.countP_append, List.countP_singleton]
        by_cases hkey :
            keyedUnresolved o k (freshEntry base cap now o' k' msg l) = true
        · have hok : o = o' ∧ k = k' := by
            simp only [keyedUnresolved, freshEntry, Bool.and_eq_true,
              decide_eq_true_eq] at hkey
            exact ⟨hkey.1.1.symm, hkey.1.2.symm⟩
          obtain ⟨rfl, rfl⟩ := hok
          have h0 : l.countP (keyedUnresolved o k) = 0 := by
            rw [List.countP_eq_zero]
            exact List.any_eq_false.mp (by simpa using hany)
          rw [if_pos hkey, h0]
        · rw [if_neg hkey]
          have := ih o k
          unfold countUnresolved at this
          omega
    | resolve now o' k' =>
      unfold countUnresolved resolveKey
      rw [List.countP_map]
      refine le_trans (List.countP_mono_left (fun e _ he => ?_)) (ih o k)
      rw [Function.comp_apply] at he
      by_cases h : keyedUnresolved o' k' e = true
      · rw [if_pos h] at he
        simp [keyedUnresolved] at he
      · rwa [if_neg h] at he
    | purge days now =>
      exact le_trans
        (List.Sublist.countP_le _ (List.filter_sublist l)) (ih o k)

/-- Two failures of the same key, recorded from the empty ledger. -/
def c1ledger : List (LedgerEntry Nat) :=
  recordFailure 60 3600 5 "sync" 7 "second"
    (recordFailure 60 3600 0 "sync" 7 "first" [])

/-- Witness for C1: after two failures of key `(sync, 7)` the ledger holds
at most one unresolved row for that key. -/
theorem c1_unresolved_unique_witness : countUnresolved "sync" 7 c1ledger ≤ 1 :=
  c1_unresolved_unique c1ledger
    (LedgerReachable.step
      (LedgerReachable.step LedgerReachable.init
        (LedgerStep.fail 60 3600 0 "sync" 7 "first" []))
      (LedgerStep.fail 60 3600 5 "sync" 7 "second"
        (recordFailure 60 3600 0 "sync" 7 "first" [])))
    "sync" 7

/-! ## C5: backoff monotonicity and the retry budget -/

/-- Two distinct members both satisfying `p` force `countP p` to at
least 2. -/
theorem two_le_countP {α : Type} (p : α → Bool) :
    ∀ (l : List α) (a b : α), a ∈ l → b ∈ l → a ≠ b →
      p a = true → p b = true → 2 ≤ l.countP p := by
  intro l
  induction l with
  | nil => intro a b ha; simp at ha
  | cons x l ih =>
    intro a b ha hb hab hpa hpb
    rcases List.mem_cons.mp ha with rfl | ha'
    · have hb' : b ∈ l := by
        rcases List.mem_cons.mp hb with rfl | h
        · exact absurd rfl hab
        · exact h
      have h1 : 0 < l.countP p := List.countP_pos_iff.mpr ⟨b, hb', hpb⟩
      rw [List.countP_cons, if_pos hpa]
      omega
    · rcases List.mem_cons.mp hb with rfl | hb'
      · have h1 : 0 < l.countP p := List.countP_pos_iff.mpr ⟨a, ha', hpa⟩
        rw [List.countP_cons, if_pos hpb]
        omega
      · have h1 := ih a b ha' hb' hab hpa hpb
        rw [List.countP_cons]
        omega

/-- **C5.** For a repeatedly failing operation: a further failure updates
the existing unresolved row, incrementing `retry_count` and strictly
increasing `next_retry_at` (exponential backoff with positive base, capped
at `cap`); and once `retry_count` reaches `max_retries` the row leaves the
Scheduler's selection while staying unresolved, so scheduler-driven
retries stop incrementing it. -/
theorem c5_backoff_monotone {K : Type} [DecidableEq K]
    (base cap now : Int) (o : String) (k : K) (msg : String)
    (l : List (LedgerEntry K)) (e : LedgerEntry K)
    (hmem : e ∈ l) (ho : e.operation_type = o) (hk : e.listing_id = k)
    (hunres : e.resolved_at = none) (hbase : 0 < base) (hcap : base ≤ cap) :
    (bumpEntry base cap now msg e ∈ recordFailure base cap now o k msg l
      ∧ (bumpEntry base cap now msg e).retry_count = e.retry_count + 1
      ∧ (e.next_retry_at ≤ now →
          e.next_retry_at < (bumpEntry base cap now msg e).next_retry_at))
    ∧ (e.max_retries ≤ e.retry_count →
        e ∉ dueEntries now l
        ∧ (countUnresolved o k l ≤ 1 →
            schedulerRetryFail base cap now o k msg l = l)) := by
  have hke : keyedUnresolved o k e = true := by
    simp [keyedUnresolved, ho, hk, hunres]
  constructor
  · refine ⟨?_, rfl, ?_⟩
    · unfold recordFailure
      rw [if_pos (List.any_eq_true.mpr ⟨e, hmem, hke⟩)]
      have hfe :
          (fun x => if keyedUnresolved o k x then bumpEntry base cap now msg x
            else x) e = bumpEntry base cap now msg e := by
        simp [hke]
      exact hfe ▸ List.mem_map_of_mem _ hmem
    · intro hdue
      have hpos : 0 < backoff base cap (e.retry_count + 1) := by
        unfold backoff
        exact lt_min (mul_pos hbase (by positivity))
          (lt_of_lt_of_le hbase hcap)
      show e.next_retry_at < now + backoff base cap (e.retry_count + 1)
      omega
  · intro hge
    constructor
    · intro hin
      have := (List.mem_filter.mp hin).2
      simp only [isDue, Bool.and_eq_true, decide_eq_true_eq] at this
      omega
    · intro hcnt
      unfold schedulerRetryFail
      rw [if_neg]
      intro hany2
      obtain ⟨e', he', hcontra⟩ := List.any_eq_true.mp hany2
      simp only [Bool.and_eq_true] at hcontra
      obtain ⟨hdue', hkey'⟩ := hcontra
      by_cases heq : e' = e
      · subst heq
        simp only [isDue, Bool.and_eq_true, decide_eq_true_eq] at hdue'
        omega
      · have h2 := two_le_countP (keyedUnresolved o k) l e' e he' hmem heq
          hkey' hke
        unfold countUnresolved at hcnt
        omega

/-- A due unresolved entry for key `(sync, 7)`, to instantiate C5. -/
def c5entry : LedgerEntry Nat :=
  { eid := 1, operation_type := "sync", listing_id := 7,
    error_message := "first", retry_count := 1, max_retries := 3,
    next_retry_at := 3, created_at := 0, last_attempted_at := 0,
    resolved_at := none }

/-- Witness for C5: the further failure at time 10 increments the entry's
retry count. -/
theorem c5_backoff_monotone_witness :
    (bumpEntry 60 3600 10 "again" c5entry).retry_count
      = c5entry.retry_count + 1 :=
  (c5_backoff_monotone 60 3600 10 "sync" 7 "again" [c5entry] c5entry
    (by simp) rfl rfl rfl (by norm_num) (by norm_num)).1.2.1

/-! ## Store lemmas for the coordinator -/

/-- Unfolding `upsertListing` on a cons cell. -/
theorem upsertListing_cons (pr nid : String) (row L : Listing)
    (ls : List Listing) :
    upsertListing pr nid row (L :: ls)
      = if listingKeyMatch pr nid L then row :: ls
        else L :: upsertListing pr nid row ls := rfl

/-- Unfolding `setIndexed` on a cons cell. -/
theorem setIndexed_cons (pr nid : String) (b : Bool) (L : Listing)
    (ls : List Listing) :
    setIndexed pr nid b (L :: ls)
      = (if listingKeyMatch pr nid L then { L with is_conversion := b }
         else L) :: setIndexed pr nid b ls := rfl

/-- Unfolding `findListing` on a cons cell. -/
theorem findListing_cons (pr nid : String) (L : Listing) (ls : List Listing) :
    findListing pr nid (L :: ls)
      = if listingKeyMatch pr nid L then some L
        else findListing pr nid ls := rfl

/-- Changing the indexed flag never changes which key a row carries. -/
theorem listingKeyMatch_setFlag (pr nid : String) (b : Bool) (L : Listing) :
    listingKeyMatch pr nid { L with is_conversion := b }
      = listingKeyMatch pr nid L := rfl

/-- The row a sync job writes carries the job's key. -/
theorem listingOfJob_self_match (j : Job) (pd : ProductData) :
    listingKeyMatch j.provider j.product_id (listingOfJob j pd) = true := by
  simp [listingKeyMatch, listingOfJob]

/-- `setIndexed` is the identity on a list without the key. -/
theorem setIndexed_countP_zero (pr nid : String) (b : Bool)
    (ls : List Listing) (h : ls.countP (listingKeyMatch pr nid) = 0) :
    setIndexed pr nid b ls = ls := by
  have hall := List.countP_eq_zero.mp h
  unfold setIndexed
  calc ls.map _ = ls.map id :=
        List.map_congr_left (fun L hL => by rw [if_neg (hall L hL)]; rfl)
    _ = ls := List.map_id ls

/-- Re-upserting the job's row after the indexed flag was set undoes the
flag: replay reaches the same store as first application (needs at most
one row per key in the initial store). -/
theorem upsertListing_resync (pr nid : String) (row : Listing)
    (hrow : listingKeyMatch pr nid row = true) :
    ∀ ls : List Listing, ls.countP (listingKeyMatch pr nid) ≤ 1 →
      upsertListing pr nid row
          (setIndexed pr nid true (upsertListing pr nid row ls))
        = upsertListing pr nid row ls := by
  intro ls
  induction ls with
  | nil =>
    intro _
    show upsertListing pr nid row
        (setIndexed pr nid true [row]) = [row]
    rw [setIndexed_cons, if_pos hrow]
    rw [upsertListing_cons,
      if_pos (by rw [listingKeyMatch_setFlag]; exact hrow)]
    rfl
  | cons L ls ih =>
    intro h
    rw [List.countP_cons] at h
    by_cases hm : listingKeyMatch pr nid L = true
    · have h0 : ls.countP (listingKeyMatch pr nid) = 0 := by
        rw [if_pos hm] at h; omega
      rw [upsertListing_cons, if_pos hm, setIndexed_cons, if_pos hrow,
        setIndexed_countP_zero pr nid true ls h0, upsertListing_cons,
        if_pos (by rw [listingKeyMatch_setFlag]; exact hrow)]
    · have h1 : ls.countP (listingKeyMatch pr nid) ≤ 1 := by
        rw [if_neg hm] at h; omega
      rw [upsertListing_cons, if_neg hm, setIndexed_cons, if_neg hm,
        upsertListing_cons, if_neg hm, ih h1]

/-- Upserting the same row twice equals upserting it once: the relational
write of a replayed job lands on the row the first attempt wrote. -/
theorem upsertListing_idem (pr nid : String) (row : Listing)
    (hrow : listingKeyMatch pr nid row = true) :
    ∀ ls : List Listing,
      upsertListing pr nid row (upsertListing pr nid row ls)
        = upsertListing pr nid row ls := by
  intro ls
  induction ls with
  | nil =>
    show upsertListing pr nid row [row] = [row]
    rw [upsertListing_cons, if_pos hrow]
  | cons L ls ih =>
    by_cases hm : listingKeyMatch pr nid L = true
    · rw [upsertListing_cons, if_pos hm, upsertListing_cons, if_pos hrow]
    · rw [upsertListing_cons, if_neg hm, upsertListing_cons, if_neg hm, ih]

/-- After an upsert, reading the key returns exactly the upserted row. -/
theorem findListing_upsertListing (pr nid : String) (row : Listing)
    (hrow : listingKeyMatch pr nid row = true) :
    ∀ ls : List Listing,
      findListing pr nid (upsertListing pr nid row ls) = some row := by
  intro ls
  induction ls with
  | nil =>
    show findListing pr nid [row] = some row
    rw [findListing_cons, if_pos hrow]
  | cons L ls ih =>
    by_cases hm : listingKeyMatch pr nid L = true
    · rw [upsertListing_cons, if_pos hm, findListing_cons, if_pos hrow]
    · rw [upsertListing_cons, if_neg hm, findListing_cons, if_neg hm, ih]

/-- Upserting the same point twice equals upserting it once. -/
theorem upsertPoint_idem {ι : Type} [DecidableEq ι] (pid : ι)
    (pt : VectorPoint ι) (hpt : pt.point_id = pid) :
    ∀ ps : List (VectorPoint ι),
      upsertPoint pid pt (upsertPoint pid pt ps) = upsertPoint pid pt ps := by
  intro ps
  induction ps with
  | nil =>
    show upsertPoint pid pt [pt] = [pt]
    unfold upsertPoint
    rw [if_pos hpt]
  | cons q ps ih =>
    by_cases hq : q.point_id = pid
    · show upsertPoint pid pt
          (if q.point_id = pid then pt :: ps else q :: upsertPoint pid pt ps)
        = if q.point_id = pid then pt :: ps else q :: upsertPoint pid pt ps
      rw [if_pos hq]
      show (if pt.point_id = pid then pt :: ps else _) = pt :: ps
      rw [if_pos hpt]
    · show upsertPoint pid pt
          (if q.point_id = pid then pt :: ps else q :: upsertPoint pid pt ps)
        = if q.point_id = pid then pt :: ps else q :: upsertPoint pid pt ps
      rw [if_neg hq]
      show (if q.point_id = pid then pt :: upsertPoint pid pt ps
            else q :: upsertPoint pid pt (upsertPoint pid pt ps))
        = q :: upsertPoint pid pt ps
      rw [if_neg hq, ih]

/-- An upsert leaves exactly one row with the key (at most one before). -/
theorem upsertListing_countP_one (pr nid : String) (row : Listing)
    (hrow : listingKeyMatch pr nid row = true) :
    ∀ ls : List Listing, ls.countP (listingKeyMatch pr nid) ≤ 1 →
      (upsertListing pr nid row ls).countP (listingKeyMatch pr nid) = 1 := by
  intro ls
  induction ls with
  | nil =>
    intro _
    show List.countP _ [row] = 1
    rw [List.countP_singleton, if_pos hrow]
  | cons L ls ih =>
    intro h
    rw [List.countP_cons] at h
    by_cases hm : listingKeyMatch pr nid L = true
    · have h0 : ls.countP (listingKeyMatch pr nid) = 0 := by
        rw [if_pos hm] at h; omega
      rw [upsertListing_cons, if_pos hm, List.countP_cons, if_pos hrow, h0]
    · have h1 : ls.countP (listingKeyMatch pr nid) ≤ 1 := by
        rw [if_neg hm] at h; omega
      rw [upsertListing_cons, if_neg hm, List.countP_cons, if_neg hm,
        ih h1]

/-- `setIndexed` does not change how many rows carry the key. -/
theorem setIndexed_countP (pr nid : String) (b : Bool) (ls : List Listing) :
    (setIndexed pr nid b ls).countP (listingKeyMatch pr nid)
      = ls.countP (listingKeyMatch pr nid) := by
  unfold setIndexed
  rw [List.countP_map]
  refine List.countP_congr (fun L _ => ?_)
  by_cases hm : listingKeyMatch pr nid L = true
  · rw [Function.comp_apply, if_pos hm, listingKeyMatch_setFlag]
  · rw [Function.comp_apply, if_neg hm]

/-- A point upsert leaves exactly one point with the id (at most one
before). -/
theorem upsertPoint_countP_one {ι : Type} [DecidableEq ι] (pid : ι)
    (pt : VectorPoint ι) (hpt : pt.point_id = pid) :
    ∀ ps : List (VectorPoint ι),
      ps.countP (fun q => decide (q.point_id = pid)) ≤ 1 →
      (upsertPoint pid pt ps).countP (fun q => decide (q.point_id = pid))
        = 1 := by
  intro ps
  induction ps with
  | nil =>
    intro _
    show List.countP _ [pt] = 1
    rw [List.countP_singleton, if_pos (by simpa using hpt)]
  | cons q ps ih =>
    intro h
    rw [List.countP_cons] at h
    by_cases hq : q.point_id = pid
    · have h0 : ps.countP (fun q => decide (q.point_id = pid)) = 0 := by
        rw [if_pos (by simpa using hq)] at h; omega
      show List.countP _
          (if q.point_id = pid then pt :: ps else q :: upsertPoint pid pt ps)
        = 1
      rw [if_pos hq, List.countP_cons, if_pos (by simpa using hpt), h0]
    · have h1 : ps.countP (fun q => decide (q.point_id = pid)) ≤ 1 := by
        rw [if_neg (by simpa using hq)] at h; omega
      show List.countP _
          (if q.point_id = pid then pt :: ps else q :: upsertPoint pid pt ps)
        = 1
      rw [if_neg hq, List.countP_cons, if_neg (by simpa using hq), ih h1]

/-! ## C3: idempotence of sync -/

/-- **C3.** Replaying a successful sync job (same job, embedding result
recomputed to the same vector) leaves both stores and the ledger exactly
as one application does, with exactly one Listing row for the job's key
and exactly one VectorPoint at the derived identity; and replaying a
partially-applied run — the relational upsert done but the embedding
failed — to success leaves both stores exactly as one clean application
does.  The initial state holds at most one row per key, as every
reachable state does. -/
theorem c3_sync_idempotent {ι : Type} [DecidableEq ι]
    (ident : String → String → ι) (base cap now base' cap' now' : Int)
    (j : Job) (pd : ProductData) (v : List Int) (s : EngineState ι)
    (hL : s.listings.countP (listingKeyMatch j.provider j.product_id) ≤ 1)
    (hP : s.points.countP
        (fun q => decide (q.point_id = ident j.provider j.product_id)) ≤ 1) :
    applySync ident base' cap' now' j pd (some v)
        (applySync ident base cap now j pd (some v) s)
      = applySync ident base cap now j pd (some v) s
    ∧ (applySync ident base cap now j pd (some v) s).listings.countP
        (listingKeyMatch j.provider j.product_id) = 1
    ∧ (applySync ident base cap now j pd (some v) s).points.countP
        (fun q => decide (q.point_id = ident j.provider j.product_id))
        = 1
    ∧ (applySync ident base' cap' now' j pd (some v)
        (applySync ident base cap now j pd none s)).listings
      = (applySync ident base cap now j pd (some v) s).listings
    ∧ (applySync ident base' cap' now' j pd (some v)
        (applySync ident base cap now j pd none s)).points
      = (applySync ident base cap now j pd (some v) s).points := by
  have hrow : listingKeyMatch j.provider j.product_id (listingOfJob j pd)
      = true := listingOfJob_self_match j pd
  have hfind := findListing_upsertListing j.provider j.product_id
    (listingOfJob j pd) hrow s.listings
  have hresync := upsertListing_resync j.provider j.product_id
    (listingOfJob j pd) hrow s.listings hL
  have hidem := upsertListing_idem j.provider j.product_id
    (listingOfJob j pd) hrow s.listings
  refine ⟨?_, ?_, ?_, ?_, ?_⟩
  · simp only [applySync, hfind, Option.getD_some, hresync]
    rw [upsertPoint_idem (ident j.provider j.product_id)
      ⟨ident j.provider j.product_id, v, listingOfJob j pd⟩ rfl s.points]
  · simp only [applySync]
    rw [setIndexed_countP,
      upsertListing_countP_one j.provider j.product_id (listingOfJob j pd)
        hrow s.listings hL]
  · simp only [applySync, hfind, Option.getD_some]
    exact upsertPoint_countP_one (ident j.provider j.product_id)
      ⟨ident j.provider j.product_id, v, listingOfJob j pd⟩ rfl s.points hP
  · simp only [applySync]
    rw [hidem]
  · simp only [applySync]
    rw [hidem]

/-- A concrete payload, to instantiate C3. -/
def c3pd : ProductData :=
  { pid := "P1", title := "Bike", price := some 4500000,
    content := some "2020 bike", year := some 2020, mileage := some 15000,
    page_url := none, images := [] }

/-- A concrete job, to instantiate C3. -/
def c3job : Job :=
  { jid := some "sync_job_001", jtype := .sync, product_id := "P1",
    provider := "bunjang", product_data := some c3pd }

/-- Witness for C3: replaying the sync on empty stores changes nothing,
and replaying after a failed embedding yields the clean run's listings. -/
theorem c3_sync_idempotent_witness :
    (applySync (fun a b => (a, b)) 60 3600 1 c3job c3pd (some [1, 2])
        (applySync (fun a b => (a, b)) 60 3600 0 c3job c3pd (some [1, 2])
          (⟨[], [], []⟩ : EngineState (String × String)))
      = applySync (fun a b => (a, b)) 60 3600 0 c3job c3pd (some [1, 2])
          (⟨[], [], []⟩ : EngineState (String × String)))
    ∧ (applySync (fun a b => (a, b)) 60 3600 1 c3job c3pd (some [1, 2])
        (applySync (fun a b => (a, b)) 60 3600 0 c3job c3pd none
          (⟨[], [], []⟩ : EngineState (String × String)))).listings
      = (applySync (fun a b => (a, b)) 60 3600 0 c3job c3pd (some [1, 2])
          (⟨[], [], []⟩ : EngineState (String × String))).listings := by
  have h := c3_sync_idempotent (fun a b => (a, b)) 60 3600 0 60 3600 1
    c3job c3pd [1, 2] ⟨[], [], []⟩ (by decide) (by decide)
  exact ⟨h.1, h.2.2.2.1⟩

/-! ## C4: the indexed flag is backed by the vector store -/

/-- A member of an upserted listing store is the new row or an old one. -/
theorem mem_upsertListing (pr nid : String) (row : Listing) :
    ∀ (ls : List Listing) (L : Listing),
      L ∈ upsertListing pr nid row ls → L = row ∨ L ∈ ls := by
  intro ls
  induction ls with
  | nil =>
    intro L hL
    simp only [upsertListing, List.mem_cons, List.not_mem_nil,
      or_false] at hL
    exact Or.inl hL
  | cons x ls ih =>
    intro L hL
    rw [upsertListing_cons] at hL
    by_cases hm : listingKeyMatch pr nid x = true
    · rw [if_pos hm] at hL
      rcases List.mem_cons.mp hL with rfl | h
      · exact Or.inl rfl
      · exact Or.inr (List.mem_cons.mpr (Or.inr h))
    · rw [if_neg hm] at hL
      rcases List.mem_cons.mp hL with rfl | h
      · exact Or.inr (List.mem_cons.mpr (Or.inl rfl))
      · rcases ih L h with h' | h'
        · exact Or.inl h'
        · exact Or.inr (List.mem_cons.mpr (Or.inr h'))

/-- The upserted point is in the resulting store. -/
theorem self_mem_upsertPoint {ι : Type} [DecidableEq ι] (pid : ι)
    (pt : VectorPoint ι) :
    ∀ ps : List (VectorPoint ι), pt ∈ upsertPoint pid pt ps := by
  intro ps
  induction ps with
  | nil => exact List.mem_cons.mpr (Or.inl rfl)
  | cons q ps ih =>
    show pt ∈
      (if q.point_id = pid then pt :: ps else q :: upsertPoint pid pt ps)
    by_cases hq : q.point_id = pid
    · rw [if_pos hq]; exact List.mem_cons.mpr (Or.inl rfl)
    · rw [if_neg hq]; exact List.mem_cons.mpr (Or.inr ih)

/-- A point upsert preserves the existence of a point at every id. -/
theorem exists_point_upsertPoint {ι : Type} [DecidableEq ι] (pid : ι)
    (pt : VectorPoint ι) (hpt : pt.point_id = pid) (x : ι) :
    ∀ ps : List (VectorPoint ι), (∃ p ∈ ps, p.point_id = x) →
      ∃ p ∈ upsertPoint pid pt ps, p.point_id = x := by
  intro ps
  by_cases hx : x = pid
  · intro _
    refine ⟨pt, self_mem_upsertPoint pid pt ps, ?_⟩
    rw [hpt]
    exact hx.symm
  · induction ps with
    | nil =>
      rintro ⟨p, hp, _⟩
      simp at hp
    | cons q ps ih =>
      rintro ⟨p, hp, hpx⟩
      show ∃ p ∈
        (if q.point_id = pid then pt :: ps else q :: upsertPoint pid pt ps),
          p.point_id = x
      rcases List.mem_cons.mp hp with rfl | hp'
      · by_cases hq : p.point_id = pid
        · rw [hpx] at hq
          exact absurd hq hx
        · rw [if_neg hq]
          exact ⟨p, List.mem_cons.mpr (Or.inl rfl), hpx⟩
      · by_cases hq : q.point_id = pid
        · rw [if_pos hq]
          exact ⟨p, List.mem_cons.mpr (Or.inr hp'), hpx⟩
        · rw [if_neg hq]
          obtain ⟨p', hp'', h'⟩ := ih ⟨p, hp', hpx⟩
          exact ⟨p', List.mem_cons.mpr (Or.inr hp''), h'⟩

/-- In every reachable engine state, an indexed Listing has a vector point
at its derived identity (the identity resolver must be collision-free). -/
theorem engine_inv {ι : Type} [DecidableEq ι] (ident : String → String → ι)
    (hinj : ∀ p1 n1 p2 n2, ident p1 n1 = ident p2 n2 → p1 = p2 ∧ n1 = n2) :
    ∀ s : EngineState ι, EngineReachable ident s →
      IndexedHasPoint ident s := by
  intro s hreach
  induction hreach with
  | init => intro L hL _; simp at hL
  | @step s s' _ hstep ih =>
    cases hstep with
    | syncStep base cap now j pd er =>
      cases er with
      | none =>
        intro L hL hflag
        simp only [applySync] at hL ⊢
        rcases mem_upsertListing _ _ _ _ _ hL with rfl | h
        · simp [listingOfJob] at hflag
        · exact ih L h hflag
      | some v =>
        intro L hL hflag
        simp only [applySync, setIndexed] at hL ⊢
        obtain ⟨L0, hL0, hLeq⟩ := List.mem_map.mp hL
        by_cases hm : listingKeyMatch j.provider j.product_id L0 = true
        · rw [if_pos hm] at hLeq
          subst hLeq
          have hkey : L0.provider = j.provider
              ∧ L0.natural_id = j.product_id := by
            simpa [listingKeyMatch] using hm
          refine ⟨_, self_mem_upsertPoint _ _ _, ?_⟩
          show ident j.provider j.product_id = _
          rw [show ({ L0 with is_conversion := true } : Listing).provider
              = L0.provider from rfl,
            show ({ L0 with is_conversion := true } : Listing).natural_id
              = L0.natural_id from rfl, hkey.1, hkey.2]
        · rw [if_neg hm] at hLeq
          subst hLeq
          rcases mem_upsertListing _ _ _ _ _ hL0 with rfl | h0
          · exact absurd (listingOfJob_self_match j pd) hm
          · exact exists_point_upsertPoint (ident j.provider j.product_id)
              _ rfl _ s.points (ih L0 h0 hflag)
    | deleteStep j =>
      intro L hL hflag
      simp only [applyDelete] at hL ⊢
      have hmem := List.mem_filter.mp hL
      have hnm : listingKeyMatch j.provider j.product_id L = false := by
        have h2 := hmem.2
        rwa [Bool.not_eq_true'] at h2
      obtain ⟨p, hp, hpid⟩ := ih L hmem.1 hflag
      refine ⟨p, List.mem_filter.mpr ⟨hp, ?_⟩, hpid⟩
      rw [Bool.not_eq_true', decide_eq_false_iff_not]
      intro heq
      rw [hpid] at heq
      obtain ⟨h1, h2⟩ := hinj _ _ _ _ heq
      simp [listingKeyMatch, h1, h2] at hnm
    | resolveStep now o k =>
      intro L hL hflag
      exact ih L hL hflag
    | purgeStep days now =>
      intro L hL hflag
      exact ih L hL hflag

/-- An embedding failure on a sync leaves the listing present and
unindexed and records a fresh unresolved ledger row with
`retry_count = 0`. -/
theorem syncFail_scenario {ι : Type} [DecidableEq ι]
    (ident : String → String → ι) (base cap now : Int) (j : Job)
    (pd : ProductData) (s : EngineState ι)
    (hnop : s.ledger.any (keyedUnresolved (jobTypeName j.jtype)
      (j.provider, j.product_id)) = false) :
    findListing j.provider j.product_id
        (applySync ident base cap now j pd none s).listings
        = some (listingOfJob j pd)
    ∧ (listingOfJob j pd).is_conversion = false
    ∧ freshEntry base cap now (jobTypeName j.jtype)
        (j.provider, j.product_id) "embedding failed" s.ledger
        ∈ (applySync ident base cap now j pd none s).ledger
    ∧ (freshEntry base cap now (jobTypeName j.jtype)
        (j.provider, j.product_id) "embedding failed"
          s.ledger).retry_count = 0
    ∧ (freshEntry base cap now (jobTypeName j.jtype)
        (j.provider, j.product_id) "embedding failed"
          s.ledger).resolved_at = none := by
  refine ⟨?_, rfl, ?_, rfl, rfl⟩
  · simp only [applySync]
    exact findListing_upsertListing _ _ _ (listingOfJob_self_match j pd) _
  · simp only [applySync, recordFailure]
    rw [if_neg (by simp [hnop])]
    simp

/-- **C4 (amended).** In every reachable state a Listing carries
`indexed = true` only if the vector store holds a point at its derived
identity; and an embedding failure on a sync with no prior unresolved
failure for the key leaves the Listing present with `indexed = false` and
a fresh unresolved FailedOperation row with `retry_count = 0` (the ledger
inserts a first failure at count 0, not 1). -/
theorem c4_indexed_only_if_confirmed {ι : Type} [DecidableEq ι]
    (ident : String → String → ι)
    (hinj : ∀ p1 n1 p2 n2, ident p1 n1 = ident p2 n2 → p1 = p2 ∧ n1 = n2)
    (s : EngineState ι) (hreach : EngineReachable ident s)
    (base cap now : Int) (j : Job) (pd : ProductData)
    (hnop : s.ledger.any (keyedUnresolved (jobTypeName j.jtype)
      (j.provider, j.product_id)) = false) :
    IndexedHasPoint ident s
    ∧ findListing j.provider j.product_id
        (applySync ident base cap now j pd none s).listings
        = some (listingOfJob j pd)
    ∧ (listingOfJob j pd).is_conversion = false
    ∧ freshEntry base cap now (jobTypeName j.jtype)
        (j.provider, j.product_id) "embedding failed" s.ledger
        ∈ (applySync ident base cap now j pd none s).ledger
    ∧ (freshEntry base cap now (jobTypeName j.jtype)
        (j.provider, j.product_id) "embedding failed"
          s.ledger).retry_count = 0
    ∧ (freshEntry base cap now (jobTypeName j.jtype)
        (j.provider, j.product_id) "embedding failed"
          s.ledger).resolved_at = none :=
  ⟨engine_inv ident hinj s hreach,
    syncFail_scenario ident base cap now j pd s hnop⟩

/-- The payload of the failing `P2` sync. -/
def c4pd : ProductData :=
  { pid := "P2", title := "Scooter", price := some 100000,
    content := none, year := none, mileage := none, page_url := none,
    images := [] }

/-- The failing `P2` sync job. -/
def c4job : Job :=
  { jid := none, jtype := .sync, product_id := "P2",
    provider := "bunjang", product_data := some c4pd }

/-- The state after the embedding of the first `P2` sync fails on empty
stores. -/
def c4state : EngineState (String × String) :=
  applySync (fun a b => (a, b)) 60 3600 0 c4job c4pd none ⟨[], [], []⟩

/-- **C4 (counterexample).** After the first embedding failure an
unresolved row for `(sync, P2)` exists, but no ledger row carries
`retry_count = 1` — the claim's `retry_count = 1` contradicts the ledger's
insert-at-zero rule. -/
theorem c4_retry_count_not_one :
    c4state.ledger.any (fun e =>
        keyedUnresolved "sync" ("bunjang", "P2") e
          && decide (e.retry_count = 0)) = true
    ∧ c4state.ledger.any (fun e =>
        keyedUnresolved "sync" ("bunjang", "P2") e
          && decide (e.retry_count = 1)) = false := by
  decide

/-- Witness for C4: the invariant holds in the initial reachable state. -/
theorem c4_indexed_only_if_confirmed_witness :
    IndexedHasPoint (fun a b => (a, b))
      (⟨[], [], []⟩ : EngineState (String × String)) :=
  (c4_indexed_only_if_confirmed (fun a b => (a, b))
    (fun _ _ _ _ h => ⟨congrArg Prod.fst h, congrArg Prod.snd h⟩)
    ⟨[], [], []⟩ EngineReachable.init 60 3600 0 c4job c4pd rfl).1

/-! ## C6: validation failures drop the job -/

/-- **C6.** A job that fails validation — in particular a sync job missing
`product_data.title`, or one carrying a non-URL-shaped image — is rejected
with a `ValidationError` naming the offending field; the rejected job
leaves both stores and the ledger untouched, so no FailedOperation row is
ever created for it. -/
theorem c6_validation_drops {ι : Type} [DecidableEq ι]
    (ident : String → String → ι) (base cap now : Int)
    (er : Option (List Int)) (raw : RawJob) (s : EngineState ι) :
    (∀ e, validate raw = .error e →
      processMessage ident base cap now er raw s = s)
    ∧ (∀ p rd, raw.jtype = some "sync" → raw.product_id = some p →
        p ≠ "" → raw.product_data = some rd → rd.pid.isSome →
        rd.title = none →
        validate raw = .error ⟨"product_data.title"⟩)
    ∧ (∀ p rd t us, raw.jtype = some "sync" → raw.product_id = some p →
        p ≠ "" → raw.product_data = some rd → rd.pid.isSome →
        rd.title = some t → t.length ≤ 500 →
        (rd.content.getD "").length ≤ 10000 →
        rd.images = some us → us.length ≤ 20 →
        us.all isUrlShaped = false →
        validate raw = .error ⟨"product_data.images"⟩) := by
  refine ⟨?_, ?_, ?_⟩
  · intro e herr
    simp [processMessage, herr]
  · intro p rd htype hpid hne hdata hq htitle
    obtain ⟨q, hq'⟩ := Option.isSome_iff_exists.mp hq
    simp [validate, validateData, htype, hpid, hne, hdata, hq', htitle,
      jobTypeOf]
  · intro p rd t us htype hpid hne hdata hq ht htlen hclen himg hcount hurl
    obtain ⟨q, hq'⟩ := Option.isSome_iff_exists.mp hq
    have h1 : ¬ (t.length > 500) := by omega
    have h2 : ¬ ((rd.content.getD "").length > 10000) := by omega
    have h3 : ¬ (us.length > 20) := by omega
    have h4 : (!us.all isUrlShaped) = true := by rw [hurl]; rfl
    simp [validate, validateData, jobTypeOf, htype, hpid, hne, hdata, hq',
      ht, himg, h1, h2, h3, h4]

/-- A raw sync message whose `product_data.title` is missing. -/
def c6raw : RawJob :=
  { jid := none, jtype := some "sync", product_id := some "P9",
    provider := none,
    product_data := some
      { pid := some "P9", title := none, price := some 1000,
        content := none, year := none, mileage := none, page_url := none,
        images := none } }

/-- A pre-existing ledger row, so the C6 witness state is non-empty. -/
def c6entry : LedgerEntry (String × String) :=
  { eid := 1, operation_type := "sync", listing_id := ("bunjang", "P1"),
    error_message := "old", retry_count := 0, max_retries := 3,
    next_retry_at := 60, created_at := 0, last_attempted_at := 0,
    resolved_at := none }

/-- A raw sync message carrying a non-URL-shaped image entry. -/
def c6rawUrl : RawJob :=
  { jid := none, jtype := some "sync", product_id := some "P10",
    provider := none,
    product_data := some
      { pid := some "P10", title := some "Bike", price := none,
        content := none, year := none, mileage := none, page_url := none,
        images := some ["not a url"] } }

/-- Witness for C6: the title-less sync is rejected naming the field,
processing it changes nothing in a non-empty state, and a sync with a
non-URL image is rejected naming `product_data.images`. -/
theorem c6_validation_drops_witness :
    validate c6raw = .error ⟨"product_data.title"⟩
    ∧ processMessage (fun a b => (a, b)) 60 3600 0 none c6raw
        (⟨[], [], [c6entry]⟩ : EngineState (String × String))
      = ⟨[], [], [c6entry]⟩
    ∧ validate c6rawUrl = .error ⟨"product_data.images"⟩ := by
  have h := c6_validation_drops (fun a b : String => (a, b)) 60 3600 0 none
    c6raw (⟨[], [], [c6entry]⟩ : EngineState (String × String))
  have herr := h.2.1 "P9" _ rfl rfl (by decide) rfl (by decide) rfl
  have h' := c6_validation_drops (fun a b : String => (a, b)) 60 3600 0 none
    c6rawUrl (⟨[], [], [c6entry]⟩ : EngineState (String × String))
  have herr2 := h'.2.2 "P10" _ "Bike" ["not a url"] rfl rfl (by decide)
    rfl (by decide) rfl (by decide) (by decide) rfl (by decide) (by decide)
  exact ⟨herr, h.1 _ herr, herr2⟩

end Finally
